import Mathlib

/-!
Shallow embedding of the county-name utilities, filter appliers, validation
engine, quality metrics and aggregation helpers of the weedmaps analytics
dashboard (source files `app/utils/data_utils.py`, `app/utils/filters.py`,
`app/utils/data_validation.py`, `app/utils/cached_calculations.py`),
together with theorems settling the specification claims about them.

Python strings are modelled as `List Char`; Python `None` and pandas `NaN`
are modelled as `Option.none`.  DataFrames are modelled column-oriented, as
association lists from column name to the list of cell values.
-/

namespace Weedmaps

/-- Python strings, modelled character by character. -/
abbrev PyStr := List Char

/-- Whitespace test used by Python `str.strip()`. -/
def isSpace (c : Char) : Bool := c.isWhitespace

/-- Remove leading whitespace (the left half of Python `str.strip()`). -/
def stripLeft : PyStr → PyStr
  | [] => []
  | c :: cs => if isSpace c then stripLeft cs else c :: cs

/-- Remove trailing whitespace (the right half of Python `str.strip()`). -/
def stripRight (s : PyStr) : PyStr := (stripLeft s.reverse).reverse

/-- Python `str.strip()`: remove leading and trailing whitespace. -/
def pyStrip (s : PyStr) : PyStr := stripRight (stripLeft s)

/-- Python `str.lower()`. -/
def pyLower (s : PyStr) : PyStr := s.map Char.toLower

/-- Python slicing `s[:-n]` for `n ≥ 1`: drop the last `n` characters. -/
def pyDropRight (s : PyStr) (n : Nat) : PyStr := s.take (s.length - n)

/-- The lowercase token `" county"` that `normalize_county_name` and
`add_county_suffix` test for with `lower().endswith(" county")`. -/
def countyToken : PyStr := " county".toList

/-- The canonically cased `" County"` appended by `add_county_suffix`. -/
def countySuffixCased : PyStr := " County".toList

/-- Embedding of `normalize_county_name` (`app/utils/data_utils.py`,
lines 8-49).  `Option.none` stands for Python `None`/`NaN` in and out;
the `name = []` test is Python falsiness of the empty string. -/
def normalize_county_name : Option PyStr → Option PyStr
  | Option.none => Option.none
  | some name =>
    if name = [] then Option.none
    else
      let normalized := pyStrip name
      if normalized = [] then Option.none
      else if countyToken.isSuffixOf (pyLower normalized) then
        some (pyStrip (pyDropRight normalized 7))
      else some normalized

/-- Embedding of `add_county_suffix` (`app/utils/data_utils.py`,
lines 52-88). -/
def add_county_suffix : Option PyStr → Option PyStr
  | Option.none => Option.none
  | some name =>
    if name = [] then Option.none
    else
      let formatted := pyStrip name
      if formatted = [] then Option.none
      else if countyToken.isSuffixOf (pyLower formatted) then some formatted
      else some (formatted ++ countySuffixCased)

example : normalize_county_name (some "Los Angeles County".toList)
    = some "Los Angeles".toList := by decide

example : normalize_county_name (some "  San Francisco County  ".toList)
    = some "San Francisco".toList := by decide

example : normalize_county_name (some "Los Angeles".toList)
    = some "Los Angeles".toList := by decide

example : add_county_suffix (some "Los Angeles".toList)
    = some "Los Angeles County".toList := by decide

example : add_county_suffix (some "Los Angeles County".toList)
    = some "Los Angeles County".toList := by decide

example : normalize_county_name (some "A County County".toList)
    = some "A County".toList := by decide

/-! ### Lemmas about the Python string primitives -/

theorem stripLeft_cons_of_not_space {c : Char} (cs : PyStr) (h : isSpace c = false) :
    stripLeft (c :: cs) = c :: cs := by
  simp [stripLeft, h]

theorem stripLeft_suffix : ∀ s : PyStr, stripLeft s <:+ s
  | [] => List.suffix_refl _
  | c :: cs => by
    unfold stripLeft
    cases h : isSpace c
    · simp
    · simpa using (stripLeft_suffix cs).trans (List.suffix_cons c cs)

theorem stripLeft_fix_head {c : Char} {x : PyStr} (h : stripLeft (c :: x) = c :: x) :
    isSpace c = false := by
  cases hc : isSpace c
  · rfl
  · exfalso
    have hlen : (stripLeft x).length ≤ x.length := (stripLeft_suffix x).length_le
    have : stripLeft (c :: x) = stripLeft x := by simp [stripLeft, hc]
    rw [this] at h
    have := congrArg List.length h
    simp at this
    omega

theorem stripLeft_idem : ∀ s : PyStr, stripLeft (stripLeft s) = stripLeft s
  | [] => rfl
  | c :: cs => by
    cases h : isSpace c
    · rw [stripLeft_cons_of_not_space cs h, stripLeft_cons_of_not_space cs h]
    · have h2 : stripLeft (c :: cs) = stripLeft cs := by simp [stripLeft, h]
      rw [h2, stripLeft_idem cs]

theorem stripLeft_head {s : PyStr} {c : Char} {t : PyStr} (h : stripLeft s = c :: t) :
    isSpace c = false := by
  have h2 : stripLeft (c :: t) = c :: t := by
    have := stripLeft_idem s
    rw [h] at this
    exact this
  exact stripLeft_fix_head h2

theorem stripLeft_ne_nil {s : PyStr} (h : ∃ c ∈ s, isSpace c = false) :
    stripLeft s ≠ [] := by
  induction s with
  | nil => rcases h with ⟨c, hc, _⟩; cases hc
  | cons a as ih =>
    rcases h with ⟨c, hc, hcs⟩
    unfold stripLeft
    cases ha : isSpace a
    · simp
    · simp only [if_pos rfl]
      rcases List.mem_cons.mp hc with h1 | h1
      · subst h1; rw [ha] at hcs; cases hcs
      · exact ih ⟨c, h1, hcs⟩

theorem pyStrip_head {s : PyStr} {c : Char} {t : PyStr} (h : pyStrip s = c :: t) :
    isSpace c = false := by
  unfold pyStrip stripRight at h
  set u := stripLeft s with hu
  obtain ⟨q, hq⟩ := stripLeft_suffix u.reverse
  have hu2 : u = (stripLeft u.reverse).reverse ++ q.reverse := by
    have := congrArg List.reverse hq
    simpa using this.symm
  rw [h] at hu2
  have hfix : stripLeft u = u := by rw [hu]; exact stripLeft_idem s
  rw [hu2] at hfix
  simp only [List.cons_append] at hfix
  exact stripLeft_fix_head hfix

theorem pyStrip_rev_head {s : PyStr} {c : Char} {t : PyStr}
    (h : (pyStrip s).reverse = c :: t) : isSpace c = false := by
  unfold pyStrip stripRight at h
  rw [List.reverse_reverse] at h
  exact stripLeft_head h

theorem pyStrip_eq_self {s : PyStr} {c d : Char} {x y : PyStr}
    (hs : s = c :: x) (hr : s.reverse = d :: y)
    (hc : isSpace c = false) (hd : isSpace d = false) : pyStrip s = s := by
  unfold pyStrip stripRight
  rw [hs, stripLeft_cons_of_not_space x hc, ← hs, hr,
    stripLeft_cons_of_not_space y hd, ← hr, List.reverse_reverse]

theorem pyStrip_idem (s : PyStr) : pyStrip (pyStrip s) = pyStrip s := by
  cases h : pyStrip s with
  | nil => rfl
  | cons c t =>
    cases hr : (pyStrip s).reverse with
    | nil => rw [List.reverse_eq_nil_iff] at hr; simp [h] at hr
    | cons d y =>
      rw [← h]
      exact pyStrip_eq_self (s := pyStrip s) h hr (pyStrip_head h) (pyStrip_rev_head hr)

theorem pyStrip_ne_nil {s : PyStr} {c : Char} {x : PyStr}
    (hs : s = c :: x) (hc : isSpace c = false) : pyStrip s ≠ [] := by
  unfold pyStrip stripRight
  rw [hs, stripLeft_cons_of_not_space x hc]
  intro hnil
  rw [List.reverse_eq_nil_iff] at hnil
  have : (c :: x).reverse ≠ [] := by simp
  have hmem : c ∈ (c :: x).reverse := by simp
  exact stripLeft_ne_nil ⟨c, hmem, hc⟩ hnil

theorem pyLower_append (a b : PyStr) : pyLower (a ++ b) = pyLower a ++ pyLower b :=
  List.map_append Char.toLower a b

theorem pyLower_cased : pyLower countySuffixCased = countyToken := by decide

theorem countySuffixCased_length : countySuffixCased.length = 7 := by decide

theorem token_isSuffixOf_append (x : PyStr) :
    countyToken.isSuffixOf (pyLower (x ++ countySuffixCased)) = true := by
  rw [List.isSuffixOf_iff_suffix, pyLower_append, pyLower_cased]
  exact List.suffix_append (pyLower x) countyToken

theorem exists_decomp_of_token_suffix {s : PyStr}
    (h : countyToken.isSuffixOf (pyLower s) = true) :
    ∃ w t7, s = w ++ t7 ∧ t7.length = 7 ∧ pyLower t7 = countyToken := by
  rw [List.isSuffixOf_iff_suffix] at h
  obtain ⟨q, hq⟩ := h
  have hlen : s.length = q.length + 7 := by
    have := congrArg List.length hq
    simpa [pyLower] using this.symm
  refine ⟨s.take q.length, s.drop q.length, (List.take_append_drop _ s).symm, ?_, ?_⟩
  · simp [hlen]
  · have hmap : pyLower (s.drop q.length) = (pyLower s).drop q.length :=
      List.map_drop Char.toLower s q.length
    rw [hmap, ← hq, List.drop_left]

theorem pyDropRight_append7 {x t : PyStr} (ht : t.length = 7) :
    pyDropRight (x ++ t) 7 = x := by
  unfold pyDropRight
  rw [List.length_append, ht, Nat.add_sub_cancel, List.take_left]

theorem char_toLower_eq_space {c : Char} (h : c.toLower = ' ') : c = ' ' := by
  simp only [Char.toLower] at h
  split at h
  · exfalso
    rename_i hn
    have hv : (c.toNat + 32).isValidChar := Or.inl (by omega)
    rw [Char.ofNat, dif_pos hv] at h
    have h32 : (Char.ofNatAux (c.toNat + 32) hv).toNat = (' ' : Char).toNat := by rw [h]
    have hval : (Char.ofNatAux (c.toNat + 32) hv).toNat = c.toNat + 32 := rfl
    rw [hval] at h32
    have : (' ' : Char).toNat = 32 := rfl
    omega
  · exact h

theorem head_not_space_of_lower_token {c : Char} {x : PyStr}
    (h : pyLower (c :: x) = countyToken) : isSpace c = false → False := by
  intro hc
  have hcl : c.toLower = ' ' := by
    have : pyLower (c :: x) = ' ' :: "county".toList := by rw [h]; decide
    simpa [pyLower] using congrArg (fun l => l.headD 'z') this
  have := char_toLower_eq_space hcl
  subst this
  simp [isSpace] at hc

/-- Characterization of `normalize_county_name` on a string whose stripped
form is non-empty. -/
theorem normalize_some_eq {s : PyStr} (hs : pyStrip s ≠ []) :
    normalize_county_name (some s) =
      (if countyToken.isSuffixOf (pyLower (pyStrip s)) then
        some (pyStrip (pyDropRight (pyStrip s) 7))
      else some (pyStrip s)) := by
  have hnil : s ≠ [] := by
    intro h0
    apply hs
    rw [h0]
    rfl
  unfold normalize_county_name
  simp only [hnil, if_neg, if_false]
  rw [if_neg hs]

/-- Characterization of `add_county_suffix` on a string whose stripped form
is non-empty. -/
theorem add_suffix_some_eq {s : PyStr} (hs : pyStrip s ≠ []) :
    add_county_suffix (some s) =
      (if countyToken.isSuffixOf (pyLower (pyStrip s)) then some (pyStrip s)
      else some (pyStrip s ++ countySuffixCased)) := by
  have hnil : s ≠ [] := by
    intro h0
    apply hs
    rw [h0]
    rfl
  unfold add_county_suffix
  simp only [hnil, if_neg, if_false]
  rw [if_neg hs]

theorem normalize_none_of_strip_nil {s : PyStr} (hs : pyStrip s = []) :
    normalize_county_name (some s) = Option.none := by
  by_cases h0 : s = []
  · subst h0; rfl
  · unfold normalize_county_name
    simp only [h0, if_neg, if_false]
    rw [if_pos hs]

theorem add_suffix_none_of_strip_nil {s : PyStr} (hs : pyStrip s = []) :
    add_county_suffix (some s) = Option.none := by
  by_cases h0 : s = []
  · subst h0; rfl
  · unfold add_county_suffix
    simp only [h0, if_neg, if_false]
    rw [if_pos hs]

/-- The result of a successful `normalize_county_name` is non-empty and is a
fixed point of stripping. -/
theorem normalize_some_spec {s r : PyStr}
    (h : normalize_county_name (some s) = some r) :
    r ≠ [] ∧ pyStrip r = r := by
  by_cases hs : pyStrip s = []
  · rw [normalize_none_of_strip_nil hs] at h; cases h
  · rw [normalize_some_eq hs] at h
    by_cases htok : countyToken.isSuffixOf (pyLower (pyStrip s)) = true
    · rw [if_pos htok] at h
      obtain ⟨w, t7, hdec, hlen, hlow⟩ := exists_decomp_of_token_suffix htok
      have hdrop : pyDropRight (pyStrip s) 7 = w := by rw [hdec]; exact pyDropRight_append7 hlen
      cases hw : w with
      | nil =>
        exfalso
        rw [hw] at hdec
        simp only [List.nil_append] at hdec
        cases ht7 : t7 with
        | nil => rw [ht7] at hlen; cases hlen
        | cons c xx =>
          rw [ht7] at hdec hlow
          exact head_not_space_of_lower_token hlow (pyStrip_head hdec)
      | cons c ww =>
        have hchead : isSpace c = false := by
          rw [hw] at hdec
          exact pyStrip_head (t := ww ++ t7) (by rw [hdec, List.cons_append])
        have hr : r = pyStrip w := by
          rw [hdrop] at h
          exact (Option.some.injEq _ _ ▸ h).symm
        constructor
        · rw [hr]
          exact pyStrip_ne_nil hw hchead
        · rw [hr, pyStrip_idem]
    · rw [if_neg htok] at h
      have hr : r = pyStrip s := (Option.some.injEq _ _ ▸ h).symm
      rw [hr]
      exact ⟨hs, pyStrip_idem s⟩

theorem isSpace_of_toLower_y {d : Char} (h : d.toLower = 'y') : isSpace d = false := by
  cases hd : isSpace d
  · rfl
  · exfalso
    have hd2 : d = ' ' ∨ d = '\t' ∨ d = '\r' ∨ d = '\n' := by
      simpa [isSpace, Char.isWhitespace, or_assoc] using hd
    rcases hd2 with h1 | h1 | h1 | h1 <;> subst h1 <;> exact absurd h (by decide)

theorem pyStrip_append_of_last {f t : PyStr} {d : Char} {y : PyStr}
    (hf : pyStrip f = f) (hfe : f ≠ []) (ht : t.reverse = d :: y)
    (hd : isSpace d = false) : pyStrip (f ++ t) = f ++ t := by
  cases f with
  | nil => exact absurd rfl hfe
  | cons c x =>
    have hc : isSpace c = false := pyStrip_head hf
    have hs2 : (c :: x) ++ t = c :: (x ++ t) := rfl
    have hr2 : ((c :: x) ++ t).reverse = d :: (y ++ (c :: x).reverse) := by
      rw [List.reverse_append, ht]; rfl
    exact pyStrip_eq_self hs2 hr2 hc hd

theorem cased_reverse : countySuffixCased.reverse = 'y' :: "tnuoC ".toList := by decide

theorem pyStrip_append_cased {f : PyStr} (hf : pyStrip f = f) (hfe : f ≠ []) :
    pyStrip (f ++ countySuffixCased) = f ++ countySuffixCased :=
  pyStrip_append_of_last hf hfe cased_reverse (by decide)

theorem token_isSuffixOf_append_tok {x tok : PyStr} (h : pyLower tok = countyToken) :
    countyToken.isSuffixOf (pyLower (x ++ tok)) = true := by
  rw [List.isSuffixOf_iff_suffix, pyLower_append, h]
  exact List.suffix_append (pyLower x) countyToken

theorem token_length_of_lower {tok : PyStr} (h : pyLower tok = countyToken) :
    tok.length = 7 := by
  have := congrArg List.length h
  simpa [pyLower] using this

theorem tok_reverse_head {tok : PyStr} (h : pyLower tok = countyToken) :
    ∃ d y, tok.reverse = d :: y ∧ isSpace d = false := by
  have hlen : tok.length = 7 := token_length_of_lower h
  cases hr : tok.reverse with
  | nil =>
    exfalso
    rw [List.reverse_eq_nil_iff] at hr
    rw [hr] at hlen
    cases hlen
  | cons d y =>
    refine ⟨d, y, rfl, ?_⟩
    have hlowrev : pyLower tok.reverse = countyToken.reverse := by
      show tok.reverse.map Char.toLower = countyToken.reverse
      rw [List.map_reverse]
      exact congrArg List.reverse h
    rw [hr] at hlowrev
    have hd : d.toLower = 'y' := by
      have : pyLower (d :: y) = 'y' :: "tnuoc ".toList := by
        rw [hlowrev]; decide
      simpa [pyLower] using congrArg (fun l => l.headD 'z') this
    exact isSpace_of_toLower_y hd

/-- Case-normalize a trailing (case-insensitive) `" county"` token to the
canonical `" County"` casing; leaves other strings unchanged.  Used to state
"equal up to the letter-case of an already-present suffix". -/
def canonSuffixCase (x : PyStr) : PyStr :=
  if countyToken.isSuffixOf (pyLower x) then pyDropRight x 7 ++ countySuffixCased else x

/-- Equality of optional county strings up to the letter-case of a trailing
`" County"` suffix. -/
def eqModSuffixCase (a b : Option PyStr) : Prop :=
  a.map canonSuffixCase = b.map canonSuffixCase

instance (a b : Option PyStr) : Decidable (eqModSuffixCase a b) := by
  unfold eqModSuffixCase; infer_instance

/-! ### Claims C2 and C3: idempotence and round-trip of the county name
normalizer -/

/-- C2, counterexample: `normalize_county_name` is not idempotent on every
non-empty string — the `" County"` suffix is stripped only once per call, so
`"A County County"` normalizes to `"A County"` and, applied again, to `"A"`. -/
theorem claim_C2_counterexample :
    ¬ (normalize_county_name (normalize_county_name (some "A County County".toList))
        = normalize_county_name (some "A County County".toList)) := by decide

/-- C2 (amended): `add_county_suffix` is idempotent on every input;
`normalize_county_name` is idempotent on every input whose normalization
does not itself end, case-insensitively, in `" county"` (equivalently, on
every input without a doubled suffix). -/
theorem claim_C2_idempotence (name : Option PyStr) :
    add_county_suffix (add_county_suffix name) = add_county_suffix name ∧
    ((∀ r, normalize_county_name name = some r →
        countyToken.isSuffixOf (pyLower r) = false) →
      normalize_county_name (normalize_county_name name)
        = normalize_county_name name) := by
  constructor
  · cases name with
    | none => rfl
    | some s =>
      by_cases hs : pyStrip s = []
      · rw [add_suffix_none_of_strip_nil hs]; rfl
      · rw [add_suffix_some_eq hs]
        by_cases htok : countyToken.isSuffixOf (pyLower (pyStrip s)) = true
        · rw [if_pos htok]
          have hs2 : pyStrip (pyStrip s) ≠ [] := by rw [pyStrip_idem]; exact hs
          rw [add_suffix_some_eq hs2, pyStrip_idem, if_pos htok]
        · rw [if_neg htok]
          have hfix : pyStrip (pyStrip s ++ countySuffixCased)
              = pyStrip s ++ countySuffixCased :=
            pyStrip_append_cased (pyStrip_idem s) hs
          have hne : pyStrip (pyStrip s ++ countySuffixCased) ≠ [] := by
            rw [hfix]
            intro hcon
            cases hcon2 : pyStrip s with
            | nil => exact hs hcon2
            | cons a b => rw [hcon2] at hcon; cases hcon
          rw [add_suffix_some_eq hne, hfix,
            if_pos (token_isSuffixOf_append (pyStrip s))]
  · intro hyp
    cases name with
    | none => rfl
    | some s =>
      cases hres : normalize_county_name (some s) with
      | none => rfl
      | some r =>
        obtain ⟨hrne, hrstrip⟩ := normalize_some_spec hres
        have hnotok : countyToken.isSuffixOf (pyLower r) = false := hyp r hres
        have hne2 : pyStrip r ≠ [] := by rw [hrstrip]; exact hrne
        have hcond : ¬ (countyToken.isSuffixOf (pyLower (pyStrip r)) = true) := by
          rw [hrstrip, hnotok]; simp
        rw [normalize_some_eq hne2, if_neg hcond, hrstrip]

/-- Witness for C2: the amended idempotence law applied to concrete inputs
(`"Napa"` for the suffixing half, `"Napa County"` for the normalizing half,
whose normalization `"Napa"` does not end in the suffix token). -/
theorem claim_C2_witness :
    add_county_suffix (add_county_suffix (some "Napa".toList))
        = add_county_suffix (some "Napa".toList) ∧
    normalize_county_name (normalize_county_name (some "Napa County".toList))
        = normalize_county_name (some "Napa County".toList) := by
  constructor
  · exact (claim_C2_idempotence (some "Napa".toList)).1
  · refine (claim_C2_idempotence (some "Napa County".toList)).2 ?_
    intro r hr
    have h2 : normalize_county_name (some "Napa County".toList)
        = some "Napa".toList := by decide
    rw [h2] at hr
    cases hr
    decide

/-- C3, counterexample: `add_county_suffix (normalize_county_name s)` is not
`add_county_suffix s` up to suffix-casing for every valid (non-empty after
trimming) string: at `"A County County"` the left side is `"A County"` but
the right side is `"A County County"`, which differ by a whole token, not
by letter-case. -/
theorem claim_C3_counterexample :
    ¬ eqModSuffixCase
        (add_county_suffix (normalize_county_name (some "A County County".toList)))
        (add_county_suffix (some "A County County".toList)) := by decide

/-- C3 (amended): for every input, `normalize(suffix(name)) = normalize(name)`
(this half holds unconditionally); and `suffix(normalize(s)) = suffix(s)`
holds with exact equality whenever the stripped string has no
case-insensitive `" county"` suffix, and up to the letter-case of the
suffix when the string is a stripped bare name followed by one
arbitrarily-cased `" county"` token. -/
theorem claim_C3_roundtrip :
    (∀ name, normalize_county_name (add_county_suffix name)
        = normalize_county_name name) ∧
    (∀ s : PyStr, countyToken.isSuffixOf (pyLower (pyStrip s)) = false →
      add_county_suffix (normalize_county_name (some s))
        = add_county_suffix (some s)) ∧
    (∀ b tok : PyStr, pyStrip b = b → b ≠ [] →
      countyToken.isSuffixOf (pyLower b) = false →
      pyLower tok = countyToken →
      eqModSuffixCase
        (add_county_suffix (normalize_county_name (some (b ++ tok))))
        (add_county_suffix (some (b ++ tok)))) := by
  refine ⟨?_, ?_, ?_⟩
  · intro name
    cases name with
    | none => rfl
    | some s =>
      by_cases hs : pyStrip s = []
      · rw [add_suffix_none_of_strip_nil hs, normalize_none_of_strip_nil hs]; rfl
      · rw [add_suffix_some_eq hs, normalize_some_eq hs]
        by_cases htok : countyToken.isSuffixOf (pyLower (pyStrip s)) = true
        · rw [if_pos htok, if_pos htok]
          have hs2 : pyStrip (pyStrip s) ≠ [] := by rw [pyStrip_idem]; exact hs
          rw [normalize_some_eq hs2, pyStrip_idem, if_pos htok]
        · rw [if_neg htok, if_neg htok]
          have hfix : pyStrip (pyStrip s ++ countySuffixCased)
              = pyStrip s ++ countySuffixCased :=
            pyStrip_append_cased (pyStrip_idem s) hs
          have hne : pyStrip (pyStrip s ++ countySuffixCased) ≠ [] := by
            rw [hfix]
            intro hcon
            cases hcon2 : pyStrip s with
            | nil => exact hs hcon2
            | cons a b => rw [hcon2] at hcon; cases hcon
          rw [normalize_some_eq hne, hfix,
            if_pos (token_isSuffixOf_append (pyStrip s)),
            pyDropRight_append7 countySuffixCased_length, pyStrip_idem]
  · intro s htok
    by_cases hs : pyStrip s = []
    · rw [normalize_none_of_strip_nil hs, add_suffix_none_of_strip_nil hs]; rfl
    · have hcond : ¬ (countyToken.isSuffixOf (pyLower (pyStrip s)) = true) := by
        rw [htok]; simp
      rw [normalize_some_eq hs, if_neg hcond]
      have hs2 : pyStrip (pyStrip s) ≠ [] := by rw [pyStrip_idem]; exact hs
      rw [add_suffix_some_eq hs2, pyStrip_idem, if_neg hcond,
        add_suffix_some_eq hs, if_neg hcond]
  · intro b tok hbstrip hbne hbtok hlow
    have htlen : tok.length = 7 := token_length_of_lower hlow
    obtain ⟨d, y, hrev, hd⟩ := tok_reverse_head hlow
    have hfix : pyStrip (b ++ tok) = b ++ tok :=
      pyStrip_append_of_last hbstrip hbne hrev hd
    have hne : pyStrip (b ++ tok) ≠ [] := by
      rw [hfix]
      cases hb2 : b with
      | nil => exact absurd hb2 hbne
      | cons a z => rw [List.cons_append]; intro hcon; cases hcon
    have htoksuf : countyToken.isSuffixOf (pyLower (pyStrip (b ++ tok))) = true := by
      rw [hfix]; exact token_isSuffixOf_append_tok hlow
    have hnorm : normalize_county_name (some (b ++ tok)) = some b := by
      rw [normalize_some_eq hne, if_pos htoksuf, hfix,
        pyDropRight_append7 htlen, hbstrip]
    have hsuffull : add_county_suffix (some (b ++ tok)) = some (b ++ tok) := by
      rw [add_suffix_some_eq hne, if_pos htoksuf, hfix]
    have hcondb : ¬ (countyToken.isSuffixOf (pyLower (pyStrip b)) = true) := by
      rw [hbstrip, hbtok]; simp
    have hsubare : add_county_suffix (some b) = some (b ++ countySuffixCased) := by
      have hbne2 : pyStrip b ≠ [] := by rw [hbstrip]; exact hbne
      rw [add_suffix_some_eq hbne2, if_neg hcondb, hbstrip]
    rw [hnorm, hsuffull, hsubare]
    unfold eqModSuffixCase
    simp only [Option.map_some']
    unfold canonSuffixCase
    rw [if_pos (token_isSuffixOf_append b), if_pos (token_isSuffixOf_append_tok hlow),
      pyDropRight_append7 countySuffixCased_length, pyDropRight_append7 htlen]

/-- Witness for C3: the amended round-trip laws applied to concrete inputs,
including the suffix-cased decomposition `"Napa" ++ " COUNTY"`. -/
theorem claim_C3_witness :
    normalize_county_name (add_county_suffix (some "Napa".toList))
        = normalize_county_name (some "Napa".toList) ∧
    add_county_suffix (normalize_county_name (some "Napa".toList))
        = add_county_suffix (some "Napa".toList) ∧
    eqModSuffixCase
      (add_county_suffix (normalize_county_name (some ("Napa".toList ++ " COUNTY".toList))))
      (add_county_suffix (some ("Napa".toList ++ " COUNTY".toList))) := by
  refine ⟨claim_C3_roundtrip.1 (some "Napa".toList), ?_, ?_⟩
  · exact claim_C3_roundtrip.2.1 "Napa".toList (by decide)
  · exact claim_C3_roundtrip.2.2 "Napa".toList " COUNTY".toList
      (by decide) (by decide) (by decide) (by decide)

/-! ### Data model: cell values, tables, filter dictionaries -/

/-- A Python/pandas cell value: an integer, a string, or a missing value
(`None`/`NaN`). -/
inductive Value where
  | vInt (n : Int)
  | vStr (s : PyStr)
  | vNone
deriving DecidableEq, Repr

open Value

/-- Decimal digits to a natural number. -/
def digitsToNat (l : PyStr) : Nat := l.foldl (fun a c => a * 10 + (c.toNat - 48)) 0

/-- Parse an unsigned decimal literal (digits with an optional fractional
part). -/
def parseUnsigned (s : PyStr) : Option ℚ :=
  let intPart := s.takeWhile Char.isDigit
  let rest := s.dropWhile Char.isDigit
  match rest with
  | [] => if intPart = [] then Option.none else some ((digitsToNat intPart : ℚ))
  | '.' :: frac =>
    if frac.all Char.isDigit ∧ (intPart ≠ [] ∨ frac ≠ []) then
      some ((digitsToNat intPart : ℚ) + (digitsToNat frac : ℚ) / ((10 : ℚ) ^ frac.length))
    else Option.none
  | _ => Option.none

/-- Parse a signed decimal literal.  Models the string half of pandas
`to_numeric(errors="coerce")` for plain decimal literals; every
claim-relevant behavior depends only on the failure (`NaN`) path. -/
def strToNumeric (s : PyStr) : Option ℚ :=
  match pyStrip s with
  | [] => Option.none
  | '-' :: rest => (parseUnsigned rest).map (fun q => -q)
  | '+' :: rest => parseUnsigned rest
  | s2 => parseUnsigned s2

/-- pandas `to_numeric(errors="coerce")` on one cell: numbers pass through,
strings are parsed, anything else becomes `NaN` (`Option.none`). -/
def toNumeric : Value → Option ℚ
  | vInt n => some ((n : ℚ))
  | vStr s => strToNumeric s
  | vNone => Option.none

/-- A DataFrame, column-oriented: an association list from column name to
that column's list of cell values.  All columns of a well-formed frame have
the same length. -/
abbrev Table := List (String × List Value)

/-- The column names of a table (`df.columns`). -/
def names (t : Table) : List String := t.map Prod.fst

/-- Look a column up by name (`df[name]`). -/
def getCol (t : Table) (name : String) : Option (List Value) :=
  (t.find? (fun nc => nc.1 == name)).map Prod.snd

/-- The row count of a (well-formed, rectangular) table (`len(df)`). -/
def nRows (t : Table) : Nat :=
  match t with
  | [] => 0
  | (_, c) :: _ => c.length

/-- Keep the entries of a column whose mask entry is `true` (pandas
boolean-mask row selection, applied to one column). -/
def applyMask (m : List Bool) (c : List Value) : List Value :=
  ((m.zip c).filter (fun bc => bc.1)).map Prod.snd

/-- pandas `df[mask]`: boolean-mask row selection on every column. -/
def maskRows (m : List Bool) (t : Table) : Table :=
  t.map (fun nc => (nc.1, applyMask m nc.2))

/-- pandas `df[name] = series`: replace the column if present, else append
it on the right. -/
def setCol (t : Table) (name : String) (c : List Value) : Table :=
  if name ∈ names t then
    t.map (fun nc => if nc.1 = name then (name, c) else nc)
  else t ++ [(name, c)]

/-- pandas `df.drop(columns=[name])`. -/
def dropCol (t : Table) (name : String) : Table :=
  t.filter (fun nc => nc.1 != name)

/-- The reserved sentinel county value `"All Counties"`. -/
def allCounties : PyStr := "All Counties".toList

/-- A sidebar filter dictionary.  `Option.none` models an absent key;
Python truthiness of list- and tuple-valued entries is tested at use sites
exactly where the source tests `filters[key]`. -/
structure Filters where
  years : Option (Int × Int) := Option.none
  license_types : Option (List PyStr) := Option.none
  counties : Option (List PyStr) := Option.none
  county : Option PyStr := Option.none
deriving DecidableEq, Repr

/-- Elementwise `(value >= start) & (value <= end)` as used by the year
filter; comparisons against `NaN` are `False` in pandas. -/
def yearInRange (v : Value) (s e : Int) : Bool :=
  match toNumeric v with
  | some q => decide (((s : ℚ)) ≤ q ∧ q ≤ ((e : ℚ)))
  | Option.none => false

/-- The year-range step shared by all three filter appliers
(`filters.py` lines 36-43, 90-97, 137-144). -/
def yearStep (f : Filters) (t : Table) : Table :=
  match f.years with
  | Option.none => t
  | some (s, e) =>
    if "Year" ∈ names t then
      maskRows (((getCol t "Year").getD []).map (fun v => yearInRange v s e)) t
    else t

/-- The license-type step of `apply_dispensary_filters`
(`filters.py` lines 45-50). -/
def licenseStep (f : Filters) (t : Table) : Table :=
  match f.license_types with
  | Option.none => t
  | some lts =>
    if lts = [] then t
    else if "License Designation" ∈ names t then
      maskRows (((getCol t "License Designation").getD []).map
        (fun v => match v with | vStr s => decide (s ∈ lts) | _ => false)) t
    else t

/-- Resolution of the legacy single-county field
(`elif "county" in filters and filters["county"] != "All Counties"`). -/
def resolveLegacy (f : Filters) : Option (List PyStr) :=
  match f.county with
  | some c => if c ≠ allCounties then some [c] else Option.none
  | Option.none => Option.none

/-- Resolution of `counties_to_filter` in `apply_dispensary_filters` and
`apply_sentiment_filters` (`filters.py` lines 52-60 and 99-107): a present,
non-empty `counties` list takes the first branch (yielding no filter at all
when it contains the sentinel); the legacy field is consulted only when
`counties` is absent or empty. -/
def resolveCounties (f : Filters) : Option (List PyStr) :=
  match f.counties with
  | some cs =>
    if cs ≠ [] then (if allCounties ∈ cs then Option.none else some cs)
    else resolveLegacy f
  | Option.none => resolveLegacy f

/-- `normalize_county_name` applied to a raw cell value, as done by
`df["County"].apply(normalize_county_name)`: `NaN` hits the `pd.isna`
branch, falsy values (empty string, integer 0) hit the `not name` branch,
and other non-strings are coerced with `str(name)`. -/
def normalizeCell (v : Value) : Option PyStr :=
  match v with
  | vNone => Option.none
  | vInt n =>
    if n = 0 then Option.none
    else normalize_county_name (some (toString n).toList)
  | vStr s => normalize_county_name (some s)

/-- Pack an optional string back into a cell (Python `None` ↦ `NaN`). -/
def optToValue (o : Option PyStr) : Value :=
  match o with
  | Option.none => vNone
  | some s => vStr s

/-- The county step of `apply_dispensary_filters` and
`apply_sentiment_filters` (`filters.py` lines 62-69 and 109-116): add a
temporary `_normalized_county` column, keep the rows whose normalized
county is a member of the normalized filter list, then drop the temporary
column. -/
def countyStepMulti (f : Filters) (t : Table) : Table :=
  match resolveCounties f with
  | Option.none => t
  | some cs =>
    if cs = [] then t
    else if "County" ∈ names t then
      let normalized_filter_counties := cs.map (fun c => normalize_county_name (some c))
      let normCol := ((getCol t "County").getD []).map
        (fun v => optToValue (normalizeCell v))
      let t1 := setCol t "_normalized_county" normCol
      let mask := ((getCol t1 "_normalized_county").getD []).map
        (fun v => decide (v ∈ normalized_filter_counties.map optToValue))
      dropCol (maskRows mask t1) "_normalized_county"
    else t

/-- The county step of `apply_density_filters` (`filters.py` lines
146-153): only the legacy scalar `county` field is consulted, and matching
is equality against the single normalized filter county. -/
def countyStepLegacy (f : Filters) (t : Table) : Table :=
  match f.county with
  | Option.none => t
  | some c =>
    if c ≠ allCounties then
      if "County" ∈ names t then
        let filter_county := normalize_county_name (some c)
        let normCol := ((getCol t "County").getD []).map
          (fun v => optToValue (normalizeCell v))
        let t1 := setCol t "_normalized_county" normCol
        let mask := ((getCol t1 "_normalized_county").getD []).map
          (fun v => decide (v = optToValue filter_county))
        dropCol (maskRows mask t1) "_normalized_county"
      else t
    else t

/-- Embedding of `apply_dispensary_filters` (`filters.py` lines 8-71):
year range, license type, then county (both filter shapes). -/
def apply_dispensary_filters (t : Table) (f : Filters) : Table :=
  countyStepMulti f (licenseStep f (yearStep f t))

/-- Embedding of `apply_sentiment_filters` (`filters.py` lines 74-118):
year range then county (both filter shapes); no license step. -/
def apply_sentiment_filters (t : Table) (f : Filters) : Table :=
  countyStepMulti f (yearStep f t)

/-- Embedding of `apply_density_filters` (`filters.py` lines 121-155):
year range then county (legacy scalar field only). -/
def apply_density_filters (t : Table) (f : Filters) : Table :=
  countyStepLegacy f (yearStep f t)

/-- Embedding of `has_active_filters` (`filters.py` lines 220-250); the
source's early returns are flattened into a disjunction. -/
def has_active_filters (f : Filters) : Bool :=
  (match f.years with
   | some (s, e) => decide (s ≠ 2018) || decide (e ≠ 2024)
   | Option.none => false) ||
  (match f.counties with
   | some cs =>
     if cs ≠ [] then decide (allCounties ∉ cs)
     else (match f.county with
           | some c => decide (c ≠ allCounties)
           | Option.none => false)
   | Option.none =>
     (match f.county with
      | some c => decide (c ≠ allCounties)
      | Option.none => false)) ||
  (match f.license_types with
   | some lts => decide (lts ≠ []) && decide (lts.length < 3)
   | Option.none => false)

/-- A two-row table with a Los Angeles row and a San Diego row. -/
def cexTable : Table :=
  [("County", [vStr "Los Angeles County".toList, vStr "San Diego County".toList])]

/-- A filter dictionary carrying both county shapes, which disagree. -/
def cexBoth : Filters :=
  { counties := some ["Los Angeles".toList], county := some "San Diego".toList }

example : apply_dispensary_filters cexTable cexBoth
    = [("County", [vStr "Los Angeles County".toList])] := by decide

example : apply_density_filters cexTable cexBoth
    = [("County", [vStr "San Diego County".toList])] := by decide

example : apply_sentiment_filters cexTable
      { counties := some [allCounties] } = cexTable := by decide

/-! ### Claim C1: dual filter shapes and precedence -/

/-- C1, counterexample: with both filter shapes present (`counties =
["Los Angeles"]`, `county = "San Diego"`), `apply_density_filters` follows
the legacy scalar field and keeps the San Diego row, while
`apply_dispensary_filters` resolves from `counties` and keeps the
Los Angeles row — so not every applier gives `counties` precedence. -/
theorem claim_C1_counterexample :
    apply_density_filters cexTable cexBoth
        = [("County", [vStr "San Diego County".toList])] ∧
    apply_density_filters cexTable cexBoth
        ≠ apply_density_filters cexTable { cexBoth with county := Option.none } ∧
    apply_dispensary_filters cexTable cexBoth
        = [("County", [vStr "Los Angeles County".toList])] := by decide

theorem resolveCounties_of_counties {f : Filters} {cs : List PyStr}
    (h : f.counties = some cs) (hne : cs ≠ []) :
    resolveCounties f = (if allCounties ∈ cs then Option.none else some cs) := by
  unfold resolveCounties
  rw [h]
  simp only [hne, if_pos, if_true]
  rw [if_pos hne]

/-- C1 (amended): `apply_dispensary_filters` and `apply_sentiment_filters`
accept both filter shapes and give the list-valued `counties` field
precedence whenever it is present and non-empty (the legacy `county` field
is then ignored); `apply_density_filters` instead consults only the legacy
`county` field and ignores `counties` entirely. -/
theorem claim_C1_precedence :
    (∀ (f : Filters) (t : Table) (cs : List PyStr),
      f.counties = some cs → cs ≠ [] →
      apply_dispensary_filters t f
          = apply_dispensary_filters t { f with county := Option.none } ∧
      apply_sentiment_filters t f
          = apply_sentiment_filters t { f with county := Option.none }) ∧
    (∀ (f : Filters) (t : Table),
      apply_density_filters t f
          = apply_density_filters t { f with counties := Option.none }) := by
  constructor
  · intro f t cs h hne
    have h2 : ({ f with county := Option.none } : Filters).counties = some cs := h
    have hres : resolveCounties f
        = resolveCounties { f with county := Option.none } := by
      rw [resolveCounties_of_counties h hne, resolveCounties_of_counties h2 hne]
    constructor
    · unfold apply_dispensary_filters countyStepMulti
      rw [hres]
      rfl
    · unfold apply_sentiment_filters countyStepMulti
      rw [hres]
      rfl
  · intro f t
    rfl

/-- Witness for C1: the amended precedence laws applied to the concrete
two-row table and the two-shape filter dictionary. -/
theorem claim_C1_witness :
    apply_dispensary_filters cexTable cexBoth
        = apply_dispensary_filters cexTable { cexBoth with county := Option.none } ∧
    apply_sentiment_filters cexTable cexBoth
        = apply_sentiment_filters cexTable { cexBoth with county := Option.none } ∧
    apply_density_filters cexTable cexBoth
        = apply_density_filters cexTable { cexBoth with counties := Option.none } := by
  refine ⟨?_, ?_, claim_C1_precedence.2 cexBoth cexTable⟩
  · exact (claim_C1_precedence.1 cexBoth cexTable ["Los Angeles".toList]
      rfl (by decide)).1
  · exact (claim_C1_precedence.1 cexBoth cexTable ["Los Angeles".toList]
      rfl (by decide)).2

/-! ### Claim C8: the sentinel county value leaves the table unchanged -/

/-- C8, counterexample: the claim fails for mixed-shape dictionaries.  With
`counties = ["All Counties"]` and `county = "San Diego"` the effective
selection is, per the claim, the sentinel, yet `apply_density_filters`
consults only the legacy field and drops a row. -/
theorem claim_C8_counterexample :
    nRows (apply_density_filters cexTable
        { counties := some [allCounties], county := some "San Diego".toList }) = 1 ∧
    nRows cexTable = 2 := by decide

/-- C8 (amended): the county step is the identity (hence leaves the row
count of any input table unchanged) exactly under each applier's own
resolution of the sentinel: for `apply_dispensary_filters` and
`apply_sentiment_filters` when a present non-empty `counties` list contains
`"All Counties"`, or when `counties` is absent or empty and the legacy
`county` field is absent or equal to `"All Counties"`; for
`apply_density_filters` when the legacy `county` field is absent or equal
to `"All Counties"` (its `counties` field is never consulted). -/
theorem claim_C8_sentinel :
    (∀ (f : Filters) (t : Table) (cs : List PyStr),
      f.counties = some cs → cs ≠ [] → allCounties ∈ cs →
      countyStepMulti f t = t) ∧
    (∀ (f : Filters) (t : Table),
      (f.counties = Option.none ∨ f.counties = some []) →
      (f.county = Option.none ∨ f.county = some allCounties) →
      countyStepMulti f t = t) ∧
    (∀ (f : Filters) (t : Table),
      (f.county = Option.none ∨ f.county = some allCounties) →
      countyStepLegacy f t = t) := by
  refine ⟨?_, ?_, ?_⟩
  · intro f t cs h hne hmem
    unfold countyStepMulti
    rw [resolveCounties_of_counties h hne, if_pos hmem]
  · intro f t hcs hc
    have hleg : resolveLegacy f = Option.none := by
      unfold resolveLegacy
      rcases hc with h | h <;> rw [h]
      simp
    have hres : resolveCounties f = Option.none := by
      unfold resolveCounties
      rcases hcs with h | h <;> rw [h]
      · exact hleg
      · simpa using hleg
    unfold countyStepMulti
    rw [hres]
  · intro f t hc
    unfold countyStepLegacy
    rcases hc with h | h <;> rw [h]
    simp

/-- Witness for C8: the amended sentinel laws applied to the concrete
two-row table. -/
theorem claim_C8_witness :
    countyStepMulti { counties := some [allCounties], county := some "San Diego".toList }
        cexTable = cexTable ∧
    countyStepMulti { county := some allCounties } cexTable = cexTable ∧
    countyStepLegacy { county := some allCounties } cexTable = cexTable := by
  refine ⟨?_, ?_, ?_⟩
  · exact claim_C8_sentinel.1 _ cexTable [allCounties] rfl (by decide) (by decide)
  · exact claim_C8_sentinel.2.1 _ cexTable (Or.inl rfl) (Or.inr rfl)
  · exact claim_C8_sentinel.2.2 _ cexTable (Or.inr rfl)

/-! ### Claim C4: `has_active_filters` versus the declared defaults -/

/-- A filter dictionary whose license dimension is a four-element list:
it cannot equal any full license-type set of three. -/
def c4Filters : Filters :=
  { license_types := some ["A".toList, "B".toList, "C".toList, "D".toList] }

/-- C4, counterexample: the license check only tests `len(...) < 3`, so a
four-element license list — which deviates from the declared default set of
3 — is still reported as inactive. -/
theorem claim_C4_counterexample :
    has_active_filters c4Filters = false ∧
    (∀ l : List PyStr, c4Filters.license_types = some l → l.length ≠ 3) := by
  constructor
  · decide
  · intro l hl
    cases hl
    decide

/-- C4 (amended): `has_active_filters` returns `True` exactly when the year
range is present and differs from `(2018, 2024)`, or a present non-empty
`counties` list lacks the `"All Counties"` sentinel, or (`counties` being
absent or empty) the legacy `county` field is present and differs from the
sentinel, or `license_types` is present, non-empty, and has fewer than 3
entries.  Absent (or empty list-valued) dimensions count as defaults, and
any license list with 3 or more entries counts as the full set. -/
theorem claim_C4_active_iff (f : Filters) :
    has_active_filters f = true ↔
      ((∃ s e, f.years = some (s, e) ∧ (s ≠ 2018 ∨ e ≠ 2024)) ∨
       (∃ cs, f.counties = some cs ∧ cs ≠ [] ∧ allCounties ∉ cs) ∨
       ((f.counties = Option.none ∨ f.counties = some []) ∧
         (∃ c, f.county = some c ∧ c ≠ allCounties)) ∨
       (∃ lts, f.license_types = some lts ∧ lts ≠ [] ∧ lts.length < 3)) := by
  obtain ⟨ys, lic, cos, cou⟩ := f
  rcases ys with _ | ⟨s0, e0⟩ <;> rcases lic with _ | lts <;>
    rcases cos with _ | cs <;> rcases cou with _ | c <;>
    (try rcases eq_or_ne cs ([] : List PyStr) with rfl | hcs) <;>
    simp_all [has_active_filters, and_assoc, exists_and_left, exists_eq_left'] <;> aesop

/-! ### Validation engine (`app/utils/data_validation.py`) -/

/-- Embedding of `ValidationResult` (`data_validation.py` lines 11-40). -/
structure ValidationResult where
  is_valid : Bool
  column : String
  message : String
  invalid_count : Nat
  invalid_values : List Value
deriving DecidableEq, Repr

/-- The "column not found" message common to all rules. -/
def notFoundMessage (display_name : String) : String :=
  "Column '" ++ display_name ++ "' not found in dataset"

/-- Embedding of `validate_positive_numeric` (`data_validation.py` lines
43-99).  Numeric formatting of message fragments approximates Python;
the "not found" message is reproduced exactly. -/
def validate_positive_numeric (df : Table) (column : String) (allow_zero : Bool)
    (column_display_name : Option String) : ValidationResult :=
  let display_name := column_display_name.getD column
  if column ∉ names df then
    { is_valid := false, column := column,
      message := notFoundMessage display_name,
      invalid_count := 0, invalid_values := [] }
  else
    let col := (getCol df column).getD []
    let numeric_values := col.map toNumeric
    let invalid_mask := numeric_values.map (fun q? =>
      match q? with
      | some q => if allow_zero then decide (q < 0) else decide (q ≤ 0)
      | Option.none => false)
    let threshold_text := if allow_zero then "non-negative (≥ 0)" else "positive (> 0)"
    let invalid_count := invalid_mask.count true
    if invalid_count > 0 then
      { is_valid := false, column := column,
        message := toString invalid_count ++ " values in '" ++ display_name
          ++ "' are not " ++ threshold_text,
        invalid_count := invalid_count,
        invalid_values := (applyMask invalid_mask col).take 5 }
    else
      { is_valid := true, column := column,
        message := "All values in '" ++ display_name ++ "' are " ++ threshold_text,
        invalid_count := 0, invalid_values := [] }

/-- Embedding of `validate_range` (`data_validation.py` lines 102-166).
The source initializes the mask as `[False] * len(df)` and or-s in the
bound checks; on a rectangular frame this equals the elementwise
disjunction used here. -/
def validate_range (df : Table) (column : String)
    (min_value max_value : Option ℚ) (column_display_name : Option String) :
    ValidationResult :=
  let display_name := column_display_name.getD column
  if column ∉ names df then
    { is_valid := false, column := column,
      message := notFoundMessage display_name,
      invalid_count := 0, invalid_values := [] }
  else
    let col := (getCol df column).getD []
    let numeric_values := col.map toNumeric
    let invalid_mask := numeric_values.map (fun q? =>
      (match min_value, q? with
       | some m, some q => decide (q < m)
       | _, _ => false) ||
      (match max_value, q? with
       | some m, some q => decide (m < q)
       | _, _ => false))
    let range_text_parts :=
      (match min_value with
       | some m => ["≥ " ++ toString m]
       | Option.none => []) ++
      (match max_value with
       | some m => ["≤ " ++ toString m]
       | Option.none => [])
    let range_text :=
      if range_text_parts = [] then "any value"
      else String.intercalate " and " range_text_parts
    let invalid_count := invalid_mask.count true
    if invalid_count > 0 then
      { is_valid := false, column := column,
        message := toString invalid_count ++ " values in '" ++ display_name
          ++ "' outside range (" ++ range_text ++ ")",
        invalid_count := invalid_count,
        invalid_values := (applyMask invalid_mask col).take 5 }
    else
      { is_valid := true, column := column,
        message := "All values in '" ++ display_name ++ "' within range ("
          ++ range_text ++ ")",
        invalid_count := 0, invalid_values := [] }

/-- Embedding of `validate_year_column` (`data_validation.py` lines
169-198); the `datetime.now()` clock read is passed in as `current_year`. -/
def validate_year_column (df : Table) (column : String) (min_year : Int)
    (max_year : Option Int) (current_year : Int) : ValidationResult :=
  let max_year2 := max_year.getD (current_year + 1)
  validate_range df column (some ((min_year : ℚ))) (some ((max_year2 : ℚ)))
    (some "Year")

/-- Embedding of `validate_sentiment_score` (`data_validation.py` lines
201-225). -/
def validate_sentiment_score (df : Table) (column : String)
    (min_score max_score : ℚ) : ValidationResult :=
  validate_range df column (some min_score) (some max_score)
    (some "Sentiment Score")

/-- Embedding of `validate_percentage` (`data_validation.py` lines
228-250). -/
def validate_percentage (df : Table) (column : String)
    (column_display_name : Option String) : ValidationResult :=
  validate_range df column (some 0) (some 100)
    (some (column_display_name.getD (column ++ " (percentage)")))

example :
    validate_positive_numeric [("x", [vInt 0, vInt 1, vInt 2, vInt 3])] "x"
      false Option.none
    = { is_valid := false, column := "x",
        message := "1 values in 'x' are not positive (> 0)",
        invalid_count := 1, invalid_values := [vInt 0] } := by decide

example :
    (validate_range [("x", [vStr "abc".toList, vInt 5])] "x"
      (some 0) (some 4) Option.none).invalid_count = 1 := by decide

/-! ### Lemmas about table primitives -/

theorem getCol_map_replace (t : Table) (c : String) (col : List Value)
    (h : c ∈ names t) :
    getCol (t.map (fun nc => if nc.1 = c then (c, col) else nc)) c = some col := by
  induction t with
  | nil => cases h
  | cons nc0 rest ih =>
    by_cases h0 : nc0.1 = c
    · unfold getCol
      simp only [List.map_cons, List.find?_cons, if_pos h0]
      simp
    · unfold getCol
      simp only [List.map_cons, List.find?_cons, if_neg h0]
      have hbeq : (nc0.1 == c) = false := by
        simp only [beq_eq_false_iff_ne, ne_eq]
        exact h0
      rw [hbeq]
      have hm : c ∈ names rest := by
        unfold names at h
        simp only [List.map_cons, List.mem_cons] at h
        rcases h with h | h
        · exact absurd h.symm h0
        · exact h
      simpa [getCol] using ih hm

theorem getCol_append_new (t : Table) (c : String) (col : List Value)
    (h : c ∉ names t) : getCol (t ++ [(c, col)]) c = some col := by
  unfold getCol
  rw [List.find?_append]
  have h1 : t.find? (fun nc => nc.1 == c) = Option.none := by
    rw [List.find?_eq_none]
    intro x hx
    simp only [beq_iff_eq]
    intro hc
    exact h (by unfold names; exact List.mem_map.mpr ⟨x, hx, hc⟩)
  rw [h1]
  simp

theorem getCol_setCol (t : Table) (c : String) (col : List Value) :
    getCol (setCol t c col) c = some col := by
  unfold setCol
  by_cases h : c ∈ names t
  · rw [if_pos h]
    exact getCol_map_replace t c col h
  · rw [if_neg h]
    exact getCol_append_new t c col h

theorem names_setCol (t : Table) (c : String) (col : List Value) :
    names (setCol t c col) = if c ∈ names t then names t else names t ++ [c] := by
  unfold setCol
  by_cases h : c ∈ names t
  · rw [if_pos h, if_pos h]
    unfold names
    rw [List.map_map]
    apply List.map_congr_left
    intro nc _
    by_cases h0 : nc.1 = c
    · simp [h0]
    · simp [h0]
  · rw [if_neg h, if_neg h]
    unfold names
    rw [List.map_append]
    rfl

theorem mem_names_setCol (t : Table) (c : String) (col : List Value) :
    c ∈ names (setCol t c col) := by
  rw [names_setCol]
  by_cases h : c ∈ names t
  · rw [if_pos h]; exact h
  · rw [if_neg h]; simp

theorem countTrue_insert_false {g : Value → Bool} {v : Value} (hg : g v = false)
    (pre post : List Value) :
    (((pre ++ v :: post).map g).count true = ((pre ++ post).map g).count true) := by
  simp [List.map_append, List.count_append, List.count_cons, hg]

theorem applyMask_map_cons (g : Value → Bool) (v : Value) (l : List Value) :
    applyMask ((v :: l).map g) (v :: l)
      = (if g v then [v] else []) ++ applyMask (l.map g) l := by
  cases hv : g v <;> simp [applyMask, hv]

theorem applyMask_insert_false {g : Value → Bool} {v : Value} (hg : g v = false)
    (pre post : List Value) :
    applyMask ((pre ++ v :: post).map g) (pre ++ v :: post)
      = applyMask ((pre ++ post).map g) (pre ++ post) := by
  induction pre with
  | nil =>
    simp only [List.nil_append]
    rw [applyMask_map_cons, hg]
    simp
  | cons a pre ih =>
    simp only [List.cons_append]
    rw [applyMask_map_cons, applyMask_map_cons]
    rw [ih]

theorem countTrue_numeric_insert (fn : Option ℚ → Bool)
    (hfn : fn Option.none = false) {v : Value} (hv : toNumeric v = Option.none)
    (pre post : List Value) :
    (((pre ++ v :: post).map toNumeric).map fn).count true
      = (((pre ++ post).map toNumeric).map fn).count true := by
  rw [List.map_map, List.map_map]
  exact countTrue_insert_false (g := fn ∘ toNumeric)
    (by simp [Function.comp, hv, hfn]) pre post

theorem applyMask_numeric_insert (fn : Option ℚ → Bool)
    (hfn : fn Option.none = false) {v : Value} (hv : toNumeric v = Option.none)
    (pre post : List Value) :
    applyMask (((pre ++ v :: post).map toNumeric).map fn) (pre ++ v :: post)
      = applyMask (((pre ++ post).map toNumeric).map fn) (pre ++ post) := by
  rw [List.map_map, List.map_map]
  exact applyMask_insert_false (g := fn ∘ toNumeric)
    (by simp [Function.comp, hv, hfn]) pre post

/-! ### Claims C6 and C7: coercion failures and missing columns -/

/-- C6: a value that fails numeric coercion is invisible to the numeric
rules.  Inserting such a value anywhere into the checked column leaves the
entire `ValidationResult` of `validate_positive_numeric` (either zero
policy) and of `validate_range` (any bounds, hence every rule derived from
it) unchanged: it never increments `invalid_count`, never appears in
`invalid_values`, and never flips `is_valid`; and the embedding is total,
so no exception is raised. -/
theorem claim_C6_coercion_excluded (t : Table) (c : String) (az : Bool)
    (dn : Option String) (mn mx : Option ℚ) (pre post : List Value) (v : Value)
    (hv : toNumeric v = Option.none) :
    validate_positive_numeric (setCol t c (pre ++ v :: post)) c az dn
      = validate_positive_numeric (setCol t c (pre ++ post)) c az dn ∧
    validate_range (setCol t c (pre ++ v :: post)) c mn mx dn
      = validate_range (setCol t c (pre ++ post)) c mn mx dn := by
  have hmem1 := mem_names_setCol t c (pre ++ v :: post)
  have hmem0 := mem_names_setCol t c (pre ++ post)
  constructor
  · unfold validate_positive_numeric
    rw [if_neg (not_not_intro hmem1), if_neg (not_not_intro hmem0),
      getCol_setCol, getCol_setCol]
    simp only [Option.getD_some]
    rw [countTrue_numeric_insert _ rfl hv, applyMask_numeric_insert _ rfl hv]
  · unfold validate_range
    rw [if_neg (not_not_intro hmem1), if_neg (not_not_intro hmem0),
      getCol_setCol, getCol_setCol]
    simp only [Option.getD_some]
    rw [countTrue_numeric_insert _ (by cases mn <;> cases mx <;> rfl) hv,
      applyMask_numeric_insert _ (by cases mn <;> cases mx <;> rfl) hv]

/-- Witness for C6: inserting the non-coercible string `"abc"` between two
numeric cells changes neither rule's result on a concrete table. -/
theorem claim_C6_witness :
    validate_positive_numeric
        (setCol [("y", [vInt 7])] "x" [vInt 1, vStr "abc".toList, vInt (-2)])
        "x" true Option.none
      = validate_positive_numeric
        (setCol [("y", [vInt 7])] "x" [vInt 1, vInt (-2)]) "x" true Option.none ∧
    validate_range
        (setCol [("y", [vInt 7])] "x" [vInt 1, vStr "abc".toList, vInt (-2)])
        "x" (some 0) (some 4) Option.none
      = validate_range
        (setCol [("y", [vInt 7])] "x" [vInt 1, vInt (-2)])
        "x" (some 0) (some 4) Option.none :=
  claim_C6_coercion_excluded [("y", [vInt 7])] "x" true Option.none
    (some 0) (some 4) [vInt 1] [vInt (-2)] (vStr "abc".toList) (by decide)

/-- C7: for every table and every column name absent from it,
`validate_positive_numeric` and `validate_range` return an invalid result
with `invalid_count = 0`, no sample values, and the "column not found"
message, independently of the table's contents. -/
theorem claim_C7_missing_column (t : Table) (c : String) (az : Bool)
    (dn : Option String) (mn mx : Option ℚ) (h : c ∉ names t) :
    validate_positive_numeric t c az dn
      = { is_valid := false, column := c,
          message := notFoundMessage (dn.getD c),
          invalid_count := 0, invalid_values := [] } ∧
    validate_range t c mn mx dn
      = { is_valid := false, column := c,
          message := notFoundMessage (dn.getD c),
          invalid_count := 0, invalid_values := [] } := by
  constructor
  · unfold validate_positive_numeric
    rw [if_pos h]
  · unfold validate_range
    rw [if_pos h]

/-- Witness for C7: a concrete one-column table validated on a missing
column name. -/
theorem claim_C7_witness :
    validate_positive_numeric [("a", [vInt 1])] "b" true Option.none
      = { is_valid := false, column := "b",
          message := notFoundMessage "b",
          invalid_count := 0, invalid_values := [] } ∧
    validate_range [("a", [vInt 1])] "b" (some 0) (some 1) Option.none
      = { is_valid := false, column := "b",
          message := notFoundMessage "b",
          invalid_count := 0, invalid_values := [] } :=
  claim_C7_missing_column [("a", [vInt 1])] "b" true Option.none
    (some 0) (some 1) (by decide)

/-! ### Quality metrics (`app/utils/cached_calculations.py` lines 215-250) -/

/-- `df.size`: rows × columns on a rectangular frame. -/
def tableSize (t : Table) : Nat := nRows t * t.length

/-- `df.isna().sum().sum()`: count of missing cells over all columns. -/
def nullCells (t : Table) : Nat := (t.map (fun nc => nc.2.count vNone)).sum

/-- The three base fields reported per dataset by
`get_data_quality_metrics`; the optional `unique_counties` and
`year_range` extras are not touched by any claim. -/
structure QualityMetrics where
  total_records : Nat
  completeness : ℚ
  null_cells : Nat
deriving DecidableEq, Repr

/-- The per-table body of `get_data_quality_metrics`
(`cached_calculations.py` lines 230-239). -/
def qualityOf (t : Table) : QualityMetrics :=
  { total_records := nRows t
    completeness :=
      if tableSize t > 0 then (1 - (nullCells t : ℚ) / (tableSize t : ℚ)) * 100
      else 0
    null_cells := nullCells t }

/-- Embedding of `get_data_quality_metrics` (`cached_calculations.py`
lines 215-250): every named, non-empty (`not df.empty`, i.e. positive
size) table gets an entry. -/
def get_data_quality_metrics (d : List (String × Table)) :
    List (String × QualityMetrics) :=
  d.filterMap (fun nt =>
    if tableSize nt.2 > 0 then some (nt.1, qualityOf nt.2) else Option.none)

/-- A 4-column, 25-row table with exactly 5 missing cells: 100 cells,
completeness 95%. -/
def qcExample : Table :=
  [("a", List.replicate 20 (vInt 1) ++ List.replicate 5 vNone),
   ("b", List.replicate 25 (vInt 2)),
   ("c", List.replicate 25 (vInt 3)),
   ("d", List.replicate 25 (vInt 4))]

/-! ### Claim C5: the completeness formula -/

/-- C5: `total_cells` is row count times column count; every non-empty
named table is reported with completeness `100 · (1 − null/total)` (0 by
definition when `total_cells = 0`); and a table with 100 cells of which 5
are missing has completeness exactly 95. -/
theorem claim_C5_completeness :
    (∀ t : Table, tableSize t = nRows t * (names t).length ∧
      (qualityOf t).completeness =
        (if tableSize t > 0 then (1 - (nullCells t : ℚ) / (tableSize t : ℚ)) * 100
         else 0)) ∧
    (∀ (d : List (String × Table)) (n : String) (t : Table),
      (n, t) ∈ d → tableSize t > 0 →
      (n, qualityOf t) ∈ get_data_quality_metrics d) ∧
    (tableSize qcExample = 100 ∧ nullCells qcExample = 5 ∧
      (qualityOf qcExample).completeness = 95) := by
  refine ⟨?_, ?_, ?_⟩
  · intro t
    constructor
    · unfold tableSize names
      rw [List.length_map]
    · rfl
  · intro d n t hmem hpos
    unfold get_data_quality_metrics
    exact List.mem_filterMap.mpr ⟨(n, t), hmem, by rw [if_pos hpos]⟩
  · refine ⟨by decide, by decide, ?_⟩
    show (if tableSize qcExample > 0 then
      (1 - (nullCells qcExample : ℚ) / (tableSize qcExample : ℚ)) * 100 else 0) = 95
    rw [if_pos (by decide)]
    norm_num [show nullCells qcExample = 5 from by decide,
      show tableSize qcExample = 100 from by decide]

/-- Witness for C5: the membership law applied to a concrete dictionary
holding the 100-cell example table. -/
theorem claim_C5_witness :
    ("q", qualityOf qcExample) ∈ get_data_quality_metrics [("q", qcExample)] :=
  claim_C5_completeness.2.1 [("q", qcExample)] "q" qcExample (by simp) (by decide)

/-! ### Regional density (`cached_calculations.py` lines 88-122) -/

/-- `Series.mean()` over the non-missing entries: pandas `NaN`
(`Option.none`) when there are none. -/
def seriesMean (vals : List ℚ) : Option ℚ :=
  if vals = [] then Option.none else some (vals.sum / ((vals.length : ℚ)))

/-- `c + " County" if not c.endswith(" County") else c` — this membership
test is case-sensitive, unlike the normalizer. -/
def formatRegionCounty (c : PyStr) : PyStr :=
  if countySuffixCased.isSuffixOf c then c else c ++ countySuffixCased

/-- Embedding of `calculate_regional_density` (`cached_calculations.py`
lines 88-122): one output row per region, averaging the per-capita metric
over member-county rows, with `NaN` (empty mean) replaced by 0. -/
def calculate_regional_density (density_df : Table)
    (region_mapping : List (String × List PyStr)) : List (String × ℚ) :=
  region_mapping.map (fun rc =>
    let counties_formatted := rc.2.map formatRegionCounty
    let mask := ((getCol density_df "County").getD []).map
      (fun v => match v with
        | vStr s => decide (s ∈ counties_formatted)
        | _ => false)
    let vals := (applyMask mask
      ((getCol density_df "Dispensary_PerCapita").getD [])).filterMap toNumeric
    (rc.1, (seriesMean vals).getD 0))

theorem applyMask_all_false : ∀ {m : List Bool} {c : List Value},
    (∀ b ∈ m, b = false) → applyMask m c = []
  | [], c, _ => rfl
  | b :: m, [], h => rfl
  | b :: m, x :: c, h => by
    have hb : b = false := h b (.head _)
    subst hb
    show applyMask (false :: m) (x :: c) = []
    have : applyMask (false :: m) (x :: c) = applyMask m c := by
      simp [applyMask]
    rw [this]
    exact applyMask_all_false (fun b2 hb2 => h b2 (.tail _ hb2))

/-! ### Claim C9: one row per region; empty regions give a defined zero -/

/-- C9: `calculate_regional_density` emits exactly one row per region of
the mapping, in order, carrying the region's name; and whenever the
region's formatted member-county list matches no entry of the County
column, that region's `Average_Density` is the defined value 0 (never an
undefined mean). -/
theorem claim_C9_regional (density_df : Table)
    (region_mapping : List (String × List PyStr)) :
    (calculate_regional_density density_df region_mapping).length
        = region_mapping.length ∧
    (∀ (i : Nat) (h1 : i < region_mapping.length)
      (h2 : i < (calculate_regional_density density_df region_mapping).length),
      ((calculate_regional_density density_df region_mapping).get ⟨i, h2⟩).1
        = (region_mapping.get ⟨i, h1⟩).1 ∧
      ((∀ v ∈ (getCol density_df "County").getD [],
          (match v with
           | vStr s =>
             decide (s ∈ ((region_mapping.get ⟨i, h1⟩).2).map formatRegionCounty)
           | _ => false) = false) →
        ((calculate_regional_density density_df region_mapping).get ⟨i, h2⟩).2
          = 0)) := by
  constructor
  · unfold calculate_regional_density
    exact List.length_map _ _
  · intro i h1 h2
    have hget : (calculate_regional_density density_df region_mapping).get ⟨i, h2⟩
        = (fun rc : String × List PyStr =>
            let counties_formatted := rc.2.map formatRegionCounty
            let mask := ((getCol density_df "County").getD []).map
              (fun v => match v with
                | vStr s => decide (s ∈ counties_formatted)
                | _ => false)
            let vals := (applyMask mask
              ((getCol density_df "Dispensary_PerCapita").getD [])).filterMap toNumeric
            (rc.1, (seriesMean vals).getD 0)) (region_mapping.get ⟨i, h1⟩) := by
      unfold calculate_regional_density
      exact List.get_map _
    rw [hget]
    refine ⟨rfl, ?_⟩
    intro hnone
    have hmask : applyMask
        (((getCol density_df "County").getD []).map
          (fun v => match v with
            | vStr s =>
              decide (s ∈ ((region_mapping.get ⟨i, h1⟩).2).map formatRegionCounty)
            | _ => false))
        ((getCol density_df "Dispensary_PerCapita").getD []) = [] := by
      apply applyMask_all_false
      intro b hb
      obtain ⟨v, hv, hvb⟩ := List.mem_map.mp hb
      rw [← hvb]
      exact hnone v hv
    show ((seriesMean ((applyMask _ _).filterMap toNumeric)).getD 0 = 0)
    rw [hmask]
    rfl

/-- Witness for C9: a region whose member counties match no row of a
concrete density table gets `Average_Density = 0`. -/
theorem claim_C9_witness :
    ((calculate_regional_density
        [("County", [vStr "Los Angeles County".toList]),
         ("Dispensary_PerCapita", [vInt 4])]
        [("North", ["Shasta".toList])]).get
      ⟨0, by decide⟩).1 = "North" ∧
    ((calculate_regional_density
        [("County", [vStr "Los Angeles County".toList]),
         ("Dispensary_PerCapita", [vInt 4])]
        [("North", ["Shasta".toList])]).get
      ⟨0, by decide⟩).2 = 0 := by
  have h := (claim_C9_regional
    [("County", [vStr "Los Angeles County".toList]),
     ("Dispensary_PerCapita", [vInt 4])]
    [("North", ["Shasta".toList])]).2 0 (by decide) (by decide)
  exact ⟨h.1, h.2 (by decide)⟩

/-! ### Claim C10: an explicit object heap for the mutation question

Python names bind references to DataFrame objects.  `df.copy()` allocates
a fresh object; row selections `df[mask]` and `df.drop(columns=...)`
(without `inplace`) build new objects and rebind the local name; the only
in-place operation in the filter appliers is the column assignment
`filtered_df["_normalized_county"] = ...`, which mutates whatever object
`filtered_df` references at that moment.  The heap embedding below follows
the appliers statement by statement so that "the input table is never
mutated" becomes a provable statement rather than a modelling assumption. -/

abbrev Heap := List Table

/-- Dereference (out-of-range reads give the empty frame; never exercised
under the validity hypothesis `r < h.length`). -/
def readH (h : Heap) (r : Nat) : Table := h.getD r []

/-- In-place mutation of the object at reference `r`. -/
def writeH (h : Heap) (r : Nat) (t : Table) : Heap := h.set r t

/-- Allocate a fresh object, returning the new heap and its reference. -/
def allocH (h : Heap) (t : Table) : Heap × Nat := (h ++ [t], h.length)

theorem readH_append_lt {h : Heap} {r : Nat} (l : Heap) (hr : r < h.length) :
    readH (h ++ l) r = readH h r := by
  unfold readH
  rw [List.getD_eq_getElem?_getD, List.getD_eq_getElem?_getD,
    List.getElem?_append_left hr]

theorem readH_append_self (h : Heap) (t : Table) :
    readH (h ++ [t]) h.length = t := by
  unfold readH
  rw [List.getD_eq_getElem?_getD, List.getElem?_concat_length]
  rfl

theorem readH_set_ne {r r2 : Nat} (h : Heap) (t : Table) (hne : r2 ≠ r) :
    readH (writeH h r2 t) r = readH h r := by
  unfold readH writeH
  rw [List.getD_eq_getElem?_getD, List.getD_eq_getElem?_getD,
    List.getElem?_set_ne hne]

theorem readH_set_self {r : Nat} (h : Heap) (t : Table) (hr : r < h.length) :
    readH (writeH h r t) r = t := by
  unfold readH writeH
  rw [List.getD_eq_getElem?_getD, List.getElem?_set_self hr]
  rfl

/-- Statement-level run of `apply_dispensary_filters` on the object heap.
`filtered_df = dispensaries.copy()` allocates; each row selection rebinds
`filtered_df` to a fresh object; the single write is the in-place
`_normalized_county` column assignment, which targets the copy. -/
def runApplyDispensary (h : Heap) (rInp : Nat) (f : Filters) : Heap × Table :=
  let a1 := allocH h (readH h rInp)
  let a2 := allocH a1.1 (yearStep f (readH a1.1 a1.2))
  let a3 := allocH a2.1 (licenseStep f (readH a2.1 a2.2))
  match resolveCounties f with
  | Option.none => (a3.1, readH a3.1 a3.2)
  | some cs =>
    if cs = [] then (a3.1, readH a3.1 a3.2)
    else if "County" ∈ names (readH a3.1 a3.2) then
      let t := readH a3.1 a3.2
      let normCol := ((getCol t "County").getD []).map
        (fun v => optToValue (normalizeCell v))
      let h4 := writeH a3.1 a3.2 (setCol t "_normalized_county" normCol)
      let t4 := readH h4 a3.2
      let mask := ((getCol t4 "_normalized_county").getD []).map
        (fun v => decide (v ∈ (cs.map
          (fun c => normalize_county_name (some c))).map optToValue))
      let a5 := allocH h4 (maskRows mask t4)
      let a6 := allocH a5.1 (dropCol (readH a5.1 a5.2) "_normalized_county")
      (a6.1, readH a6.1 a6.2)
    else (a3.1, readH a3.1 a3.2)

/-- Statement-level run of `apply_sentiment_filters` (no license step). -/
def runApplySentiment (h : Heap) (rInp : Nat) (f : Filters) : Heap × Table :=
  let a1 := allocH h (readH h rInp)
  let a2 := allocH a1.1 (yearStep f (readH a1.1 a1.2))
  match resolveCounties f with
  | Option.none => (a2.1, readH a2.1 a2.2)
  | some cs =>
    if cs = [] then (a2.1, readH a2.1 a2.2)
    else if "County" ∈ names (readH a2.1 a2.2) then
      let t := readH a2.1 a2.2
      let normCol := ((getCol t "County").getD []).map
        (fun v => optToValue (normalizeCell v))
      let h4 := writeH a2.1 a2.2 (setCol t "_normalized_county" normCol)
      let t4 := readH h4 a2.2
      let mask := ((getCol t4 "_normalized_county").getD []).map
        (fun v => decide (v ∈ (cs.map
          (fun c => normalize_county_name (some c))).map optToValue))
      let a5 := allocH h4 (maskRows mask t4)
      let a6 := allocH a5.1 (dropCol (readH a5.1 a5.2) "_normalized_county")
      (a6.1, readH a6.1 a6.2)
    else (a2.1, readH a2.1 a2.2)

/-- Statement-level run of `apply_density_filters` (legacy county only). -/
def runApplyDensity (h : Heap) (rInp : Nat) (f : Filters) : Heap × Table :=
  let a1 := allocH h (readH h rInp)
  let a2 := allocH a1.1 (yearStep f (readH a1.1 a1.2))
  match f.county with
  | Option.none => (a2.1, readH a2.1 a2.2)
  | some c =>
    if c ≠ allCounties then
      if "County" ∈ names (readH a2.1 a2.2) then
        let t := readH a2.1 a2.2
        let normCol := ((getCol t "County").getD []).map
          (fun v => optToValue (normalizeCell v))
        let h4 := writeH a2.1 a2.2 (setCol t "_normalized_county" normCol)
        let t4 := readH h4 a2.2
        let mask := ((getCol t4 "_normalized_county").getD []).map
          (fun v => decide (v = optToValue (normalize_county_name (some c))))
        let a5 := allocH h4 (maskRows mask t4)
        let a6 := allocH a5.1 (dropCol (readH a5.1 a5.2) "_normalized_county")
        (a6.1, readH a6.1 a6.2)
      else (a2.1, readH a2.1 a2.2)
    else (a2.1, readH a2.1 a2.2)

/-- Statement-level run of `validate_range`: the source contains no
in-place operation at all (it only builds fresh series and a
`ValidationResult`), so the heap passes through untouched. -/
def runValidateRange (h : Heap) (rInp : Nat) (column : String)
    (min_value max_value : Option ℚ) (column_display_name : Option String) :
    Heap × ValidationResult :=
  (h, validate_range (readH h rInp) column min_value max_value
    column_display_name)

theorem names_maskRows (m : List Bool) (t : Table) : names (maskRows m t) = names t := by
  unfold names maskRows
  rw [List.map_map]
  rfl

theorem names_yearStep (f : Filters) (t : Table) : names (yearStep f t) = names t := by
  unfold yearStep
  split
  · rfl
  · split
    · rw [names_maskRows]
    · rfl

theorem names_licenseStep (f : Filters) (t : Table) :
    names (licenseStep f t) = names t := by
  unfold licenseStep
  split
  · rfl
  · split
    · rfl
    · split
      · rw [names_maskRows]
      · rfl

theorem names_dropCol (t : Table) (n : String) :
    names (dropCol t n) = (names t).filter (fun s => s != n) := by
  unfold names dropCol
  rw [List.filter_map]
  rfl

theorem filter_self_of_ne {l : List String} {n : String} (h : n ∉ l) :
    l.filter (fun s => s != n) = l := by
  rw [List.filter_eq_self]
  intro a ha
  simp only [bne_iff_ne, ne_eq]
  intro hc
  exact h (hc ▸ ha)

theorem names_countyStepMulti (f : Filters) (t : Table)
    (hn : "_normalized_county" ∉ names t) :
    names (countyStepMulti f t) = names t := by
  unfold countyStepMulti
  split
  · rfl
  · split
    · rfl
    · split
      · simp [names_dropCol, names_maskRows, names_setCol, hn,
          List.filter_append, filter_self_of_ne hn]
      · rfl

theorem names_countyStepLegacy (f : Filters) (t : Table)
    (hn : "_normalized_county" ∉ names t) :
    names (countyStepLegacy f t) = names t := by
  unfold countyStepLegacy
  split
  · rfl
  · split
    · split
      · simp [names_dropCol, names_maskRows, names_setCol, hn,
          List.filter_append, filter_self_of_ne hn]
      · rfl
    · rfl

theorem readH_set_append (h2 : Heap) (a t : Table) :
    readH (writeH (h2 ++ [a]) h2.length t) h2.length = t :=
  readH_set_self _ _ (by simp)

theorem runDisp_val (h : Heap) (r : Nat) (f : Filters) :
    (runApplyDispensary h r f).2 = apply_dispensary_filters (readH h r) f := by
  unfold runApplyDispensary apply_dispensary_filters countyStepMulti
  simp only [allocH, readH_append_self, readH_set_append]
  split
  · rfl
  · split
    · rfl
    · split
      · rfl
      · rfl

theorem runSent_val (h : Heap) (r : Nat) (f : Filters) :
    (runApplySentiment h r f).2 = apply_sentiment_filters (readH h r) f := by
  unfold runApplySentiment apply_sentiment_filters countyStepMulti
  simp only [allocH, readH_append_self, readH_set_append]
  split
  · rfl
  · split
    · rfl
    · split
      · rfl
      · rfl

theorem runDens_val (h : Heap) (r : Nat) (f : Filters) :
    (runApplyDensity h r f).2 = apply_density_filters (readH h r) f := by
  unfold runApplyDensity apply_density_filters countyStepLegacy
  simp only [allocH, readH_append_self, readH_set_append]
  split
  · rfl
  · split
    · split
      · rfl
      · rfl
    · rfl

theorem runDisp_heap (h : Heap) (r : Nat) (f : Filters) (hr : r < h.length) :
    readH (runApplyDispensary h r f).1 r = readH h r := by
  unfold runApplyDispensary
  simp only [allocH]
  split
  · rw [readH_append_lt _ (by simp; omega), readH_append_lt _ (by simp; omega),
      readH_append_lt _ hr]
  · split
    · rw [readH_append_lt _ (by simp; omega), readH_append_lt _ (by simp; omega),
        readH_append_lt _ hr]
    · split
      · rw [readH_append_lt _ (by simp [writeH]; omega),
          readH_append_lt _ (by simp [writeH]; omega),
          readH_set_ne _ _ (by simp; omega),
          readH_append_lt _ (by simp; omega), readH_append_lt _ (by simp; omega),
          readH_append_lt _ hr]
      · rw [readH_append_lt _ (by simp; omega), readH_append_lt _ (by simp; omega),
          readH_append_lt _ hr]

theorem runSent_heap (h : Heap) (r : Nat) (f : Filters) (hr : r < h.length) :
    readH (runApplySentiment h r f).1 r = readH h r := by
  unfold runApplySentiment
  simp only [allocH]
  split
  · rw [readH_append_lt _ (by simp; omega), readH_append_lt _ hr]
  · split
    · rw [readH_append_lt _ (by simp; omega), readH_append_lt _ hr]
    · split
      · rw [readH_append_lt _ (by simp [writeH]; omega),
          readH_append_lt _ (by simp [writeH]; omega),
          readH_set_ne _ _ (by simp; omega),
          readH_append_lt _ (by simp; omega), readH_append_lt _ hr]
      · rw [readH_append_lt _ (by simp; omega), readH_append_lt _ hr]

theorem runDens_heap (h : Heap) (r : Nat) (f : Filters) (hr : r < h.length) :
    readH (runApplyDensity h r f).1 r = readH h r := by
  unfold runApplyDensity
  simp only [allocH]
  split
  · rw [readH_append_lt _ (by simp; omega), readH_append_lt _ hr]
  · split
    · split
      · rw [readH_append_lt _ (by simp [writeH]; omega),
          readH_append_lt _ (by simp [writeH]; omega),
          readH_set_ne _ _ (by simp; omega),
          readH_append_lt _ (by simp; omega), readH_append_lt _ hr]
      · rw [readH_append_lt _ (by simp; omega), readH_append_lt _ hr]
    · rw [readH_append_lt _ (by simp; omega), readH_append_lt _ hr]

/-- C10: no filter applier or validator mutates its input table.  On the
object heap, each applier (run statement by statement, with the in-place
`_normalized_county` column assignment modelled as a heap write) leaves
the input object unchanged — the write lands on the `.copy()` — and its
returned value agrees with the pure embedding; `validate_range` (the body
shared by the derived rules) contains no in-place statement at all, so its
run returns the heap untouched together with only a `ValidationResult`;
and the temporary `_normalized_county` column never survives into any
applier's result: output column names equal input column names. -/
theorem claim_C10_no_mutation :
    (∀ (h : Heap) (r : Nat) (f : Filters), r < h.length →
      readH (runApplyDispensary h r f).1 r = readH h r ∧
      readH (runApplySentiment h r f).1 r = readH h r ∧
      readH (runApplyDensity h r f).1 r = readH h r) ∧
    (∀ (h : Heap) (r : Nat) (f : Filters),
      (runApplyDispensary h r f).2 = apply_dispensary_filters (readH h r) f ∧
      (runApplySentiment h r f).2 = apply_sentiment_filters (readH h r) f ∧
      (runApplyDensity h r f).2 = apply_density_filters (readH h r) f) ∧
    (∀ (h : Heap) (r : Nat) (c : String) (mn mx : Option ℚ) (dn : Option String),
      (runValidateRange h r c mn mx dn).1 = h) ∧
    (∀ (t : Table) (f : Filters), "_normalized_county" ∉ names t →
      names (apply_dispensary_filters t f) = names t ∧
      names (apply_sentiment_filters t f) = names t ∧
      names (apply_density_filters t f) = names t) := by
  refine ⟨?_, ?_, ?_, ?_⟩
  · intro h r f hr
    exact ⟨runDisp_heap h r f hr, runSent_heap h r f hr, runDens_heap h r f hr⟩
  · intro h r f
    exact ⟨runDisp_val h r f, runSent_val h r f, runDens_val h r f⟩
  · intro h r c mn mx dn
    rfl
  · intro t f hn
    refine ⟨?_, ?_, ?_⟩
    · unfold apply_dispensary_filters
      rw [names_countyStepMulti f _
          (by rw [names_licenseStep, names_yearStep]; exact hn),
        names_licenseStep, names_yearStep]
    · unfold apply_sentiment_filters
      rw [names_countyStepMulti f _ (by rw [names_yearStep]; exact hn),
        names_yearStep]
    · unfold apply_density_filters
      rw [names_countyStepLegacy f _ (by rw [names_yearStep]; exact hn),
        names_yearStep]

/-- Witness for C10: the no-mutation laws applied to a concrete one-object
heap holding the two-row table, with an actually-filtering county
dictionary (so the county step, temporary column and heap write all
execute). -/
theorem claim_C10_witness :
    readH (runApplyDispensary [cexTable] 0 cexBoth).1 0 = readH [cexTable] 0 ∧
    (runApplyDispensary [cexTable] 0 cexBoth).2
        = apply_dispensary_filters (readH [cexTable] 0) cexBoth ∧
    names (apply_dispensary_filters cexTable cexBoth) = names cexTable :=
  ⟨(claim_C10_no_mutation.1 [cexTable] 0 cexBoth (by decide)).1,
    (claim_C10_no_mutation.2.1 [cexTable] 0 cexBoth).1,
    (claim_C10_no_mutation.2.2.2 cexTable cexBoth (by decide)).1⟩

end Weedmaps
